import Mathlib

/-!
Verification development for the mesh diagnostic engine in
`src/scripts/mesh-analyzer.py`.

The Python source is shallowly embedded: machine floats become exact
rationals (`ℚ`), numpy arrays become lists, dictionaries keyed by mesh
name become association lists, and every function under analysis becomes
a computable Lean definition translated clause by clause from the
source.  Presentational output fields of the source (rounded display
values, textual position descriptions, sample-position lists, rendered
views) that no analysed property depends on are noted in the
corresponding doc comments and omitted.
-/

namespace MeshAnalyzer

/-- A 3-component vector of exact rationals, standing for a numpy
3-vector of floats (point, extent, or normal). -/
structure Vec3 where
  x : ℚ
  y : ℚ
  z : ℚ
deriving DecidableEq

/-- Component access by axis index 0/1/2, mirroring `v[dim]` in the
source. -/
def Vec3.comp (v : Vec3) (i : Fin 3) : ℚ :=
  if i = 0 then v.x else if i = 1 then v.y else v.z

/-- Axis-aligned bounding box: `mesh.bounds` rows `[min, max]`. -/
structure Bounds3 where
  bmin : Vec3
  bmax : Vec3
deriving DecidableEq

/-- Per-face data derived from a mesh: `triangles_center[i]`,
`face_normals[i]`, `area_faces[i]`.  The source reads these cached
arrays; the embedding takes them as the input data of each analysis. -/
structure FaceData where
  center : Vec3
  normal : Vec3
  area : ℚ
deriving DecidableEq

/-! ## String helpers

The source tests membership of a lowercase token in a lowercased name
(`'tray' in name.lower()`) and of a token in a lowercased warning
(`"watertight" in warn.lower()`).  We model Python substring membership
on character lists. -/

/-- Whether the first character list is an initial segment of the
second (helper for substring search). -/
def leadsWith : List Char → List Char → Bool
  | [], _ => true
  | _ :: _, [] => false
  | a :: as, b :: bs => a == b && leadsWith as bs

/-- Whether the first character list occurs contiguously inside the
second, as Python's `in` on strings. -/
def occursIn (needle : List Char) : List Char → Bool
  | [] => leadsWith needle []
  | c :: rest => leadsWith needle (c :: rest) || occursIn needle rest

/-- Python's `needle in s.lower()` for an already-lowercase needle. -/
def strOccursLower (needle : List Char) (s : String) : Bool :=
  occursIn needle (s.toList.map Char.toLower)

/-- The token `tray` used by the source to recognise content-like
meshes. -/
def trayToken : List Char := ['t', 'r', 'a', 'y']

/-- The token `watertight` used by `main` to drop advisory watertight
warnings from the combined issue list. -/
def watertightToken : List Char :=
  ['w', 'a', 't', 'e', 'r', 't', 'i', 'g', 'h', 't']

/-! ## Mesh Validator (`analyze_mesh`, lines 46-77)

The loading and stats parts of `analyze_mesh` are external collaborators
(mesh loader); the validation checks are embedded.  Inputs are the
watertightness and winding flags reported by the mesh library, and the
list of per-face areas. -/

/-- Warning text appended when the mesh is not watertight. -/
def watertightWarn : String := "Mesh is not watertight - may have holes or gaps"

/-- Warning text appended when face winding is inconsistent. -/
def windingWarn : String := "Face winding is inconsistent - some faces may be inverted"

/-- Error text for degenerate faces: the f-string
`Found {degenerate_count} degenerate faces (zero area)`. -/
def degenerateMsg (n : Nat) : String :=
  "Found " ++ toString n ++ " degenerate faces (zero area)"

/-- The fixed epsilon `1e-10` under which a face area counts as
degenerate. -/
def degenerateEps : ℚ := 1 / 10 ^ 10

/-- Number of degenerate faces: `np.sum(face_areas < 1e-10)` (strict
comparison). -/
def degCount (areas : List ℚ) : Nat :=
  areas.countP (fun a => decide (a < degenerateEps))

/-- The errors and warnings lists produced by `analyze_mesh`. -/
structure MeshChecks where
  errors : List String
  warnings : List String
deriving DecidableEq

/-- Validation part of `analyze_mesh`: warnings for non-watertight and
inconsistent winding in that order, then a single error entry when the
degenerate-face count is positive. -/
def analyze_mesh_checks (isWatertight isWindingConsistent : Bool)
    (areas : List ℚ) : MeshChecks :=
  let warnings :=
    (if isWatertight then [] else [watertightWarn]) ++
    (if isWindingConsistent then [] else [windingWarn])
  let errors :=
    if 0 < degCount areas then [degenerateMsg (degCount areas)] else []
  ⟨errors, warnings⟩

/-! ## Batch aggregation (`main`, lines 931-938)

For each analysed mesh, `main` stores the untouched per-mesh report in
`report["meshes"][name]` and then appends to the combined issue list
every error prefixed with the mesh name, and every warning prefixed with
the mesh name except those containing `watertight` (lowercased). -/

/-- Per-mesh report fragment fed to the aggregation loop: mesh name,
error list, warning list. -/
structure MeshReport where
  name : String
  errors : List String
  warnings : List String
deriving DecidableEq

/-- The f-string `{name}: {msg}` used when an error or warning is
propagated into the combined issue list. -/
def taggedIssue (name msg : String) : String := name ++ ": " ++ msg

/-- Whether a warning is dropped from the combined list:
`"watertight" in warn.lower()`. -/
def isWatertightWarn (w : String) : Bool := strOccursLower watertightToken w

/-- Issues contributed by one mesh: all its errors, then its
non-watertight warnings, each name-prefixed. -/
def meshIssues (r : MeshReport) : List String :=
  r.errors.map (taggedIssue r.name) ++
    (r.warnings.filter (fun w => !(isWatertightWarn w))).map (taggedIssue r.name)

/-- The aggregation loop of `main`: folds over the per-mesh reports,
accumulating the stored per-mesh records and the combined issue list. -/
def mainAggregate (reports : List MeshReport) :
    List MeshReport × List String :=
  reports.foldl (fun acc r => (acc.1 ++ [r], acc.2 ++ meshIssues r)) ([], [])

/-! ## Bounding-box overlap test (`check_intersections`, lines 836-845) -/

/-- Separation test on one axis with the 0.5 tolerance:
`bounds1[1][dim] <= bounds2[0][dim] + 0.5 or bounds2[1][dim] <= bounds1[0][dim] + 0.5`. -/
def axisSeparated (b1 b2 : Bounds3) (d : Fin 3) : Bool :=
  decide (b1.bmax.comp d ≤ b2.bmin.comp d + 1/2) ||
  decide (b2.bmax.comp d ≤ b1.bmin.comp d + 1/2)

/-- Two placed bounding boxes overlap iff no axis separates them. -/
def overlapsB (b1 b2 : Bounds3) : Bool :=
  !(axisSeparated b1 b2 0 || axisSeparated b1 b2 1 || axisSeparated b1 b2 2)

/-! ## Intersection Checker (`check_intersections`, lines 815-859) -/

/-- Named (x, y) placement offsets, as the `placements` dictionary. -/
abbrev Placements : Type := List (String × ℚ × ℚ)

/-- Python `placements.get(name, ...)` with the per-key defaults
`.get('x', 0)` and `.get('y', 0)`: first matching entry, else (0, 0). -/
def lookupPlacement (pl : Placements) (n : String) : ℚ × ℚ :=
  match pl.find? (fun p => p.1 == n) with
  | some p => p.2
  | none => (0, 0)

/-- The inner `get_placed_bounds`: shift the x and y bounds by the
placement offset.  The source skips the shift when the name is absent;
the default offset (0, 0) makes the shift the identity in that case. -/
def get_placed_bounds (pl : Placements) (n : String) (b : Bounds3) : Bounds3 :=
  let p := lookupPlacement pl n
  ⟨⟨b.bmin.x + p.1, b.bmin.y + p.2, b.bmin.z⟩,
   ⟨b.bmax.x + p.1, b.bmax.y + p.2, b.bmax.z⟩⟩

/-- Label of the first axis. -/
def axisX : String := "X"

/-- Label of the second axis. -/
def axisY : String := "Y"

/-- Label of the third axis. -/
def axisZ : String := "Z"

/-- Axis label used in defect strings: `['X', 'Y', 'Z'][dim]`. -/
def axisName (d : Fin 3) : String :=
  if d = 0 then axisX else if d = 1 then axisY else axisZ

/-- Component 0 is the x coordinate. -/
theorem Vec3.comp_zero (v : Vec3) : v.comp 0 = v.x := rfl

/-- Component 1 is the y coordinate. -/
theorem Vec3.comp_one (v : Vec3) : v.comp 1 = v.y := rfl

/-- Component 2 is the z coordinate. -/
theorem Vec3.comp_two (v : Vec3) : v.comp 2 = v.z := rfl

/-- The exact container name the source compares against
(`name2 == 'box'`). -/
def boxName : String := "box"

/-- Defect string `{name1} extends outside box on {axis} min`. -/
def extendsMinMsg (n1 : String) (d : Fin 3) : String :=
  n1 ++ " extends outside box on " ++ axisName d ++ " min"

/-- Defect string `{name1} extends outside box on {axis} max`. -/
def extendsMaxMsg (n1 : String) (d : Fin 3) : String :=
  n1 ++ " extends outside box on " ++ axisName d ++ " max"

/-- Defect string `Collision: {name1} and {name2} overlap`. -/
def collisionMsg (n1 n2 : String) : String :=
  "Collision: " ++ n1 ++ " and " ++ n2 ++ " overlap"

/-- Per-axis containment checks run when a tray (enumerated first)
overlaps the box: for each axis, a `min` defect when the tray bound lies
below the box bound by more than 0.5, then a `max` defect when it lies
above by more than 0.5. -/
def containDefects (n1 : String) (b1 b2 : Bounds3) : List String :=
  (List.finRange 3).flatMap (fun d =>
    (if b1.bmin.comp d < b2.bmin.comp d - 1/2 then [extendsMinMsg n1 d] else []) ++
    (if b1.bmax.comp d > b2.bmax.comp d + 1/2 then [extendsMaxMsg n1 d] else []))

/-- Issues produced for one enumerated pair `(name1, name2)` with placed
bounds `b1, b2`: nothing without overlap; containment defects when
`name1` is tray-like and `name2` is exactly the box; a collision defect
when both are tray-like; nothing otherwise. -/
def pairIssues (m1 m2 : String × Bounds3) : List String :=
  if overlapsB m1.2 m2.2 then
    if strOccursLower trayToken m1.1 && (m2.1 == boxName) then
      containDefects m1.1 m1.2 m2.2
    else if strOccursLower trayToken m1.1 && strOccursLower trayToken m2.1 then
      [collisionMsg m1.1 m2.1]
    else []
  else []

/-- All ordered pairs (i, j) with i before j, in the enumeration order
of the nested loops `for i, m1 in enumerate(list)` /
`for m2 in list[i+1:]`. -/
def orderedPairs : List α → List (α × α)
  | [] => []
  | a :: rest => rest.map (fun b => (a, b)) ++ orderedPairs rest

/-- The mesh list with placements applied, in input order. -/
def placedList (ms : List (String × Bounds3)) (pl : Placements) :
    List (String × Bounds3) :=
  ms.map (fun m => (m.1, get_placed_bounds pl m.1 m.2))

/-- `check_intersections`: issues of every enumerated pair of placed
meshes, concatenated in enumeration order. -/
def check_intersections (ms : List (String × Bounds3)) (pl : Placements) :
    List String :=
  (orderedPairs (placedList ms pl)).flatMap (fun p => pairIssues p.1 p.2)

/-! ## Spatial Fit Analyzer (`compute_spatial_analysis`, lines 172-227)

Only meshes whose lowercased name contains `tray` enter the tray list.
Each tray record keeps the mesh extents and its placement offsets; the
source then sorts by the y offset (Python's stable ascending sort) and
takes the far y edge of the LAST tray of the sorted list as
`total_tray_depth` (0 when there are no trays). -/

/-- One tray record as assembled by the loop at lines 178-198. -/
structure TrayRec where
  name : String
  width : ℚ
  depth : ℚ
  height : ℚ
  posX : ℚ
  posY : ℚ
deriving DecidableEq

/-- Tray records from the mesh extents and placements: filter names
containing `tray` (lowercased) and attach the placement offsets. -/
def trayRecords (meshes : List (String × Vec3)) (pl : Placements) :
    List TrayRec :=
  meshes.filterMap (fun m =>
    if strOccursLower trayToken m.1 then
      let p := lookupPlacement pl m.1
      some ⟨m.1, m.2.x, m.2.y, m.2.z, p.1, p.2⟩
    else none)

/-- Stable ascending insertion by y offset: an element is inserted
before the first existing element with a key not smaller than its own,
so earlier input elements precede equal-keyed later ones — the
behaviour of Python's stable `list.sort`. -/
def insertByY (t : TrayRec) : List TrayRec → List TrayRec
  | [] => [t]
  | u :: us => if t.posY ≤ u.posY then t :: u :: us else u :: insertByY t us

/-- Stable ascending sort by y offset, modelling
`trays.sort(key=lambda t: t["position"]["y"])`. -/
def sortByY : List TrayRec → List TrayRec
  | [] => []
  | t :: ts => insertByY t (sortByY ts)

/-- Last element of a tray list, if any (`trays[-1]`). -/
def lastTray : List TrayRec → Option TrayRec
  | [] => none
  | [t] => some t
  | _ :: t :: ts => lastTray (t :: ts)

/-- Far y edge `pos_y + dims[1]` of a tray. -/
def farEdge (t : TrayRec) : ℚ := t.posY + t.depth

/-- `total_tray_depth`: 0 when no trays, else the far y edge of the last
tray after the sort by y offset. -/
def total_tray_depth (ts : List TrayRec) : ℚ :=
  match lastTray (sortByY ts) with
  | none => 0
  | some t => farEdge t

/-- The total tray depth computed by `compute_spatial_analysis` from the
mesh extents and placements. -/
def spatialTotalDepth (meshes : List (String × Vec3)) (pl : Placements) : ℚ :=
  total_tray_depth (trayRecords meshes pl)

/-! ## Ramp Feature Detector (`detect_ramps`, lines 238-373)

A face is diagonal when at least two absolute normal components exceed
0.2 and the largest stays below 0.95.  With fewer than 2 diagonal faces
the detector returns no clusters.  Diagonal-face centroids are grouped
by `scipy.cluster.hierarchy.fclusterdata(centers, t=3.0,
criterion='distance')` with the default single-linkage method: two faces
land in the same flat cluster exactly when a chain of faces links them
with successive centroid distances at most 3.0.  Clusters with fewer
than 3 faces, or total area below 1.0 or above 50.0, are discarded.

The embedding computes the same connected components by folding faces
into groups and merging every group within 3.0 of the new face.  The
presentational fields of the output dictionaries (rounded positions,
relative positions, textual position description) are omitted; the kept
fields are the face count, the total area, the average normal and the
protrusion direction.

On the average normal: the source re-normalises the mean of the member
normals (`avg_normal / np.linalg.norm(avg_normal)`) before comparing
absolute components and reading off the sign.  Division by the positive
Euclidean norm changes neither any comparison between absolute
components nor any component's sign, so the embedding computes the
protrusion direction from the mean itself; when the mean is the zero
vector the source compares NaNs (all comparisons false) and the
embedding compares zeros (no strict comparison holds), with the same
`unknown` outcome. -/

/-- Squared Euclidean distance between face centroids. -/
def sqDist (p q : Vec3) : ℚ :=
  (p.x - q.x) * (p.x - q.x) + (p.y - q.y) * (p.y - q.y) +
    (p.z - q.z) * (p.z - q.z)

/-- Single-linkage adjacency: centroid distance at most the 3.0 cluster
cutoff (compared on squares to stay in ℚ). -/
def closeFaces (p q : Vec3) : Bool := decide (sqDist p q ≤ 9)

/-- Diagonal-face test of lines 259-267: at least two absolute normal
components above 0.2, and the maximum absolute component below 0.95. -/
def isDiagonal (n : Vec3) : Bool :=
  let cnt : Nat :=
    (if (1:ℚ)/5 < |n.x| then 1 else 0) +
    (if (1:ℚ)/5 < |n.y| then 1 else 0) +
    (if (1:ℚ)/5 < |n.z| then 1 else 0)
  decide (2 ≤ cnt) && decide (max |n.x| (max |n.y| |n.z|) < 19/20)

/-- Whether a face is within the cluster cutoff of some member of a
group. -/
def touchesGroup (f : FaceData) (g : List FaceData) : Bool :=
  g.any (fun h => closeFaces f.center h.center)

/-- Add one face to the running groups: merge every group the face
touches into one group containing the face. -/
def addFace (gs : List (List FaceData)) (f : FaceData) : List (List FaceData) :=
  let near := gs.filter (fun g => touchesGroup f g)
  let far := gs.filter (fun g => !(touchesGroup f g))
  (f :: near.flatten) :: far

/-- Connected components of the diagonal faces under the 3.0-distance
adjacency — the flat clusters of single-linkage clustering cut at
distance 3.0. -/
def clusterGroups (dfs : List FaceData) : List (List FaceData) :=
  dfs.foldl addFace []

/-- Protrusion direction label `+X`. -/
def dirPlusX : String := "+X"

/-- Protrusion direction label `-X`. -/
def dirMinusX : String := "-X"

/-- Protrusion direction label `+Y`. -/
def dirPlusY : String := "+Y"

/-- Protrusion direction label `-Y`. -/
def dirMinusY : String := "-Y"

/-- Protrusion direction label `unknown` (the initial value, kept when
neither strict-dominance branch fires). -/
def dirUnknown : String := "unknown"

/-- Lines 319-324: `+X`/`-X` when the absolute first component strictly
dominates both others, else `+Y`/`-Y` when the absolute second component
strictly dominates both others, else `unknown`. -/
def protrusionDir (m : Vec3) : String :=
  if |m.x| > |m.y| ∧ |m.x| > |m.z| then
    if m.x > 0 then dirPlusX else dirMinusX
  else if |m.y| > |m.x| ∧ |m.y| > |m.z| then
    if m.y > 0 then dirPlusY else dirMinusY
  else dirUnknown

/-- Componentwise mean of a list of vectors (`np.mean(..., axis=0)`). -/
def meanVec (vs : List Vec3) : Vec3 :=
  ⟨(vs.map Vec3.x).sum / (vs.length : ℚ),
   (vs.map Vec3.y).sum / (vs.length : ℚ),
   (vs.map Vec3.z).sum / (vs.length : ℚ)⟩

/-- One detected ramp feature (the claim-relevant fields of the
`ramp_info` dictionary). -/
structure RampCluster where
  faceCount : Nat
  totalArea : ℚ
  meanNormal : Vec3
  dir : String
deriving DecidableEq

/-- Cluster filter and summary of lines 294-324: drop clusters with
fewer than 3 faces or with total area outside [1.0, 50.0]; otherwise
report size, total area, average normal and protrusion direction. -/
def mkRamp (g : List FaceData) : Option RampCluster :=
  if g.length < 3 then none
  else
    let totalArea := (g.map FaceData.area).sum
    if totalArea < 1 ∨ totalArea > 50 then none
    else
      let m := meanVec (g.map FaceData.normal)
      some ⟨g.length, totalArea, m, protrusionDir m⟩

/-- `detect_ramps` on the per-face data of a mesh: empty when fewer
than 2 diagonal faces exist, else the surviving clusters. -/
def detect_ramps (faces : List FaceData) : List RampCluster :=
  let dfs := faces.filter (fun f => isDiagonal f.normal)
  if dfs.length < 2 then []
  else (clusterGroups dfs).filterMap mkRamp

/-! ## Expected-Position Region Analyzer
(`analyze_expected_ramp_positions`, lines 376-538)

The wall-region analysis keeps the face count, total area, angled-face
count and status string; the presentational fields (coordinate ranges,
average position, detail text, and the flat-face count of the Y-slide
variant) are omitted.  The empty branch of the source reports only
`faces_found = 0` and the status; the embedding fills the numeric
fields with zeros there. -/

/-- Status string of an empty region. -/
def noGeomStatus : String := "NO GEOMETRY AT EXPECTED RAMP LOCATION"

/-- Status string when more than 5 angled faces are found. -/
def rampStatus : String := "RAMP DETECTED"

/-- Status string when at most 5 angled faces are found. -/
def flatStatus : String := "Flat geometry only"

/-- Result of one wall-region analysis. -/
structure RegionResult where
  facesFound : Nat
  totalArea : ℚ
  angledCount : Nat
  status : String
deriving DecidableEq

/-- Angled-face test shared by the region analyses:
`abs(normal[2]) < 0.9 and (abs(normal[0]) > 0.3 or abs(normal[1]) > 0.3)`. -/
def angledPred (f : FaceData) : Bool :=
  decide (|f.normal.z| < 9/10) &&
    (decide (|f.normal.x| > 3/10) || decide (|f.normal.y| > 3/10))

/-- Summary step shared by both wall-region variants: no-geometry when
nothing matched, else count angled faces and classify. -/
def regionSummary (matching : List FaceData) : RegionResult :=
  if matching.isEmpty then ⟨0, 0, 0, noGeomStatus⟩
  else
    let angled := matching.filter angledPred
    ⟨matching.length, (matching.map FaceData.area).sum, angled.length,
     if angled.length > 5 then rampStatus else flatStatus⟩

/-- The Y-slide `analyze_wall_region` (lines 483-530): faces with
centroid x in [xMin, xMax], y strictly beyond the exit threshold, and z
in the groove band. -/
def analyze_wall_region (xMin xMax exitY gzMin gzMax : ℚ)
    (faces : List FaceData) : RegionResult :=
  regionSummary (faces.filter (fun f =>
    decide (xMin ≤ f.center.x) && decide (f.center.x ≤ xMax) &&
    decide (f.center.y > exitY) &&
    decide (gzMin ≤ f.center.z) && decide (f.center.z ≤ gzMax)))

/-- The X-slide `analyze_wall_region_x` (lines 413-448): centroid y in
[yMin, yMax], x strictly beyond the exit threshold, z in the groove
band. -/
def analyze_wall_region_x (yMin yMax exitX gzMin gzMax : ℚ)
    (faces : List FaceData) : RegionResult :=
  regionSummary (faces.filter (fun f =>
    decide (yMin ≤ f.center.y) && decide (f.center.y ≤ yMax) &&
    decide (f.center.x > exitX) &&
    decide (gzMin ≤ f.center.z) && decide (f.center.z ≤ gzMax)))

/-- The `box_type` label of the Y-slide branch. -/
def ySlideLabel : String := "Y-slide (depth > width)"

/-- The `box_type` label of the X-slide branch. -/
def xSlideLabel : String := "X-slide (width > depth)"

/-- The typical wall thickness hard-coded at lines 396/461. -/
def wallThickness : ℚ := 3

/-- Result of `analyze_expected_ramp_positions`: the orientation label
and the two symmetric wall analyses (left/right for Y-slide, front/back
for X-slide). -/
structure ERPResult where
  boxType : String
  wallLow : RegionResult
  wallHigh : RegionResult
deriving DecidableEq

/-- `analyze_expected_ramp_positions` on mesh extents (width, depth,
height) and per-face data: branch on `depth > width`, set the groove
z band to [height-4, height-0.5] and the exit threshold at 0.85 of the
slide dimension, and analyse the two wall regions. -/
def analyze_expected_ramp_positions (width depth height : ℚ)
    (faces : List FaceData) : ERPResult :=
  if depth > width then
    ⟨ySlideLabel,
     analyze_wall_region 0 (wallThickness + 1) (depth * 17/20)
       (height - 4) (height - 1/2) faces,
     analyze_wall_region (width - wallThickness - 1) width (depth * 17/20)
       (height - 4) (height - 1/2) faces⟩
  else
    ⟨xSlideLabel,
     analyze_wall_region_x 0 (wallThickness + 1) (width * 17/20)
       (height - 4) (height - 1/2) faces,
     analyze_wall_region_x (depth - wallThickness - 1) depth (width * 17/20)
       (height - 4) (height - 1/2) faces⟩

/-! ## Entry-vs-Exit Comparator (`compare_entry_vs_exit`, lines 695-812)

Faces are counted in a 10-unit band after the entry wall and before the
exit wall, restricted to the wall-adjacent cross range and the groove z
band, and only when the normal's protrusion component exceeds 0.3.  The
diagnosis depends only on the two counts.  The sample positions and
rounded areas of the output are omitted. -/

/-- Diagnosis string of the entry-exceeds-exit defect. -/
def problemDiag : String :=
  "PROBLEM: More protruding faces at ENTRY than EXIT - ramp may be at wrong end!"

/-- Diagnosis string of a sufficient exit feature. -/
def okDiag : String := "OK: Protruding faces detected at EXIT region"

/-- Diagnosis string of a sparse exit feature. -/
def warnDiag : String :=
  "WARNING: Few protruding faces at EXIT - ramp may be missing or too small"

/-- The diagnosis chain of lines 760-765 (and its duplicate at lines
805-810): entry > exit, else exit > 10, else the warning. -/
def diagnose (entryCount exitCount : Nat) : String :=
  if entryCount > exitCount then problemDiag
  else if exitCount > 10 then okDiag
  else warnDiag

/-- The `slide_type` label for Y-slide. -/
def ySlideShort : String := "Y-slide"

/-- The `slide_type` label for X-slide. -/
def xSlideShort : String := "X-slide"

/-- Result of `compare_entry_vs_exit`. -/
structure EEResult where
  slideType : String
  entryCount : Nat
  exitCount : Nat
  diagnosis : String
deriving DecidableEq

/-- The Y-slide `get_groove_faces`: left-wall x range [0, wall+2],
given y band, groove z band [height-4, height], and a +x protruding
normal above 0.3. -/
def grooveFacesY (height yLo yHi : ℚ) (faces : List FaceData) :
    List FaceData :=
  faces.filter (fun f =>
    decide (0 ≤ f.center.x) && decide (f.center.x ≤ wallThickness + 2) &&
    decide (yLo ≤ f.center.y) && decide (f.center.y ≤ yHi) &&
    decide (height - 4 ≤ f.center.z) && decide (f.center.z ≤ height) &&
    decide (f.normal.x > 3/10))

/-- The X-slide `get_groove_faces_x`: front-wall y range [0, wall+2],
given x band, groove z band, and a +y protruding normal above 0.3. -/
def grooveFacesX (height xLo xHi : ℚ) (faces : List FaceData) :
    List FaceData :=
  faces.filter (fun f =>
    decide (xLo ≤ f.center.x) && decide (f.center.x ≤ xHi) &&
    decide (0 ≤ f.center.y) && decide (f.center.y ≤ wallThickness + 2) &&
    decide (height - 4 ≤ f.center.z) && decide (f.center.z ≤ height) &&
    decide (f.normal.y > 3/10))

/-- `compare_entry_vs_exit` on mesh extents and per-face data. -/
def compare_entry_vs_exit (width depth height : ℚ)
    (faces : List FaceData) : EEResult :=
  if depth > width then
    let entry := grooveFacesY height 0 (wallThickness + 10) faces
    let exits := grooveFacesY height (depth - wallThickness - 10) depth faces
    ⟨ySlideShort, entry.length, exits.length,
     diagnose entry.length exits.length⟩
  else
    let entry := grooveFacesX height 0 (wallThickness + 10) faces
    let exits := grooveFacesX height (width - wallThickness - 10) width faces
    ⟨xSlideShort, entry.length, exits.length,
     diagnose entry.length exits.length⟩

/-! ## Concrete example inputs used by witnesses and counterexamples -/

/-- A face list with 8 faces in the entry groove band and 2 in the exit
groove band of a 40 × 90 × 20 Y-slide box. -/
def exEEFaces : List FaceData :=
  [⟨⟨1, 1, 18⟩, ⟨1, 0, 0⟩, 1⟩, ⟨⟨1, 2, 18⟩, ⟨1, 0, 0⟩, 1⟩,
   ⟨⟨1, 3, 18⟩, ⟨1, 0, 0⟩, 1⟩, ⟨⟨1, 4, 18⟩, ⟨1, 0, 0⟩, 1⟩,
   ⟨⟨1, 5, 18⟩, ⟨1, 0, 0⟩, 1⟩, ⟨⟨1, 6, 18⟩, ⟨1, 0, 0⟩, 1⟩,
   ⟨⟨1, 7, 18⟩, ⟨1, 0, 0⟩, 1⟩, ⟨⟨1, 8, 18⟩, ⟨1, 0, 0⟩, 1⟩,
   ⟨⟨1, 80, 18⟩, ⟨1, 0, 0⟩, 1⟩, ⟨⟨1, 81, 18⟩, ⟨1, 0, 0⟩, 1⟩]

/-- A single face inside the wall region queried with bounds
x ∈ [0, 5], y > 10, z ∈ [16, 20], with an angled normal. -/
def exWallFaces : List FaceData := [⟨⟨1, 11, 18⟩, ⟨1, 0, 0⟩, 2⟩]

/-- Three faces sharing a centroid whose common normal has tied X and Y
absolute components (3/5) exceeding the Z component (1/2). -/
def exTieFaces : List FaceData :=
  [⟨⟨0, 0, 0⟩, ⟨3/5, 3/5, 1/2⟩, 4⟩, ⟨⟨0, 0, 0⟩, ⟨3/5, 3/5, 1/2⟩, 4⟩,
   ⟨⟨0, 0, 0⟩, ⟨3/5, 3/5, 1/2⟩, 4⟩]

/-- The cluster `detect_ramps` produces on `exTieFaces`. -/
def exTieCluster : RampCluster := ⟨3, 12, ⟨3/5, 3/5, 1/2⟩, dirUnknown⟩

/-- Three faces sharing a centroid whose common normal has a strictly
dominant positive X component. -/
def exDomFaces : List FaceData :=
  [⟨⟨0, 0, 0⟩, ⟨4/5, 3/10, 2/5⟩, 4⟩, ⟨⟨0, 0, 0⟩, ⟨4/5, 3/10, 2/5⟩, 4⟩,
   ⟨⟨0, 0, 0⟩, ⟨4/5, 3/10, 2/5⟩, 4⟩]

/-- The cluster `detect_ramps` produces on `exDomFaces`. -/
def exDomCluster : RampCluster := ⟨3, 12, ⟨4/5, 3/10, 2/5⟩, dirPlusX⟩

/-- Two diagonal faces within the cluster cutoff, with combined area
10. -/
def exTwoDiagFaces : List FaceData :=
  [⟨⟨0, 0, 0⟩, ⟨3/5, 3/5, 1/2⟩, 5⟩, ⟨⟨1, 0, 0⟩, ⟨3/5, 3/5, 1/2⟩, 5⟩]

/-- A batch report used to witness the aggregation behaviour: one error
and both advisory warnings. -/
def exReport : MeshReport := ⟨boxName, [degenerateMsg 1], [watertightWarn, windingWarn]⟩

/-- Name of a first example tray. -/
def trayAName : String := "tray_a"

/-- Name of a second example tray. -/
def trayBName : String := "tray_b"

/-- Bounds of an example container box. -/
def exBoxBounds : Bounds3 := ⟨⟨0, 0, 0⟩, ⟨100, 100, 50⟩⟩

/-- Bounds of an example tray overlapping the box and exceeding its max
X bound by more than the 0.5 tolerance. -/
def exTrayBounds : Bounds3 := ⟨⟨90, 10, 0⟩, ⟨110, 20, 10⟩⟩

/-- Two example trays: the first has a small offset but a large depth
(far edge 100), the second a larger offset but a small depth (far edge
15). -/
def exC1Meshes : List (String × Vec3) :=
  [(trayAName, ⟨10, 100, 5⟩), (trayBName, ⟨10, 5, 5⟩)]

/-- Placements of the example trays: the second tray sits at y = 10. -/
def exC1Placements : Placements := [(trayBName, (0, 10))]

/-- Formalisation of the claim's own words for the aggregated total
depth: the maximum far edge (placement depth-offset plus depth extent)
over all content items. -/
def claimMaxFarEdge (ts : List TrayRec) : ℚ := (ts.map farEdge).foldr max 0

/-! ## Helper lemmas -/

/-- Total number of faces across a list of groups. -/
def sumLens (gs : List (List FaceData)) : Nat := (gs.map List.length).sum

/-- A Boolean filter and its complement split the total group size. -/
theorem sumLens_filter (p : List FaceData → Bool) (gs : List (List FaceData)) :
    sumLens (gs.filter p) + sumLens (gs.filter (fun g => !(p g))) = sumLens gs := by
  induction gs with
  | nil => rfl
  | cons g rest ih =>
    cases hp : p g <;>
      simp only [sumLens, List.filter_cons, hp, Bool.not_true, Bool.not_false,
        if_true, if_false, Bool.true_eq_false, Bool.false_eq_true, List.map_cons,
        List.sum_cons, ite_true, ite_false] at ih ⊢ <;>
      omega

/-- Adding a face to the running groups grows the total size by one. -/
theorem sumLens_addFace (gs : List (List FaceData)) (f : FaceData) :
    sumLens (addFace gs f) = sumLens gs + 1 := by
  have hsplit := sumLens_filter (fun g => touchesGroup f g) gs
  simp only [addFace, sumLens, List.map_cons, List.sum_cons, List.length_cons,
    List.length_flatten] at hsplit ⊢
  omega

/-- Folding faces into groups accumulates the total size. -/
theorem sumLens_foldl (dfs : List FaceData) :
    ∀ gs, sumLens (List.foldl addFace gs dfs) = sumLens gs + dfs.length := by
  induction dfs with
  | nil => intro gs; simp
  | cons f rest ih =>
    intro gs
    rw [List.foldl_cons, ih, sumLens_addFace, List.length_cons]
    omega

/-- Any member group is at most the total size. -/
theorem mem_le_sumLens {g : List FaceData} {gs : List (List FaceData)}
    (h : g ∈ gs) : g.length ≤ sumLens gs := by
  induction gs with
  | nil => simp at h
  | cons a rest ih =>
    rcases List.mem_cons.mp h with rfl | hmem
    · simp only [sumLens, List.map_cons, List.sum_cons]
      omega
    · have := ih hmem
      simp only [sumLens, List.map_cons, List.sum_cons] at this ⊢
      omega

/-- Every cluster of the grouping step has at most as many faces as the
diagonal-face list it was built from. -/
theorem clusterGroups_size {g : List FaceData} {dfs : List FaceData}
    (h : g ∈ clusterGroups dfs) : g.length ≤ dfs.length := by
  have h1 := mem_le_sumLens h
  have h2 := sumLens_foldl dfs []
  unfold clusterGroups at h1
  have h3 : sumLens [] = 0 := rfl
  rw [h3, Nat.zero_add] at h2
  omega

/-- Every output cluster records the protrusion direction computed from
its own recorded average normal. -/
theorem detect_ramps_dir (faces : List FaceData) (c : RampCluster)
    (hc : c ∈ detect_ramps faces) : c.dir = protrusionDir c.meanNormal := by
  simp only [detect_ramps] at hc
  split at hc
  case isTrue => simp at hc
  case isFalse =>
    obtain ⟨g, hg, hmk⟩ := List.mem_filterMap.mp hc
    simp only [mkRamp] at hmk
    split at hmk
    case isTrue => simp at hmk
    case isFalse =>
      split at hmk
      case isTrue => simp at hmk
      case isFalse =>
        obtain rfl := Option.some_inj.mp hmk
        rfl

/-- Insertion keeps exactly the old elements plus the new one. -/
theorem mem_insertByY (t a : TrayRec) :
    ∀ l, a ∈ insertByY t l ↔ a = t ∨ a ∈ l := by
  intro l
  induction l with
  | nil => simp [insertByY]
  | cons u us ih =>
    simp only [insertByY]
    split
    · simp only [List.mem_cons]
    · simp only [List.mem_cons, ih]
      tauto

/-- Sorting keeps exactly the input elements. -/
theorem mem_sortByY (a : TrayRec) : ∀ l, a ∈ sortByY l ↔ a ∈ l := by
  intro l
  induction l with
  | nil => simp [sortByY]
  | cons t ts ih => simp only [sortByY, mem_insertByY, ih, List.mem_cons]

/-- Insertion into a y-sorted list keeps it y-sorted. -/
theorem chain_insertByY (t : TrayRec) :
    ∀ l, List.Chain' (fun a b : TrayRec => a.posY ≤ b.posY) l →
      List.Chain' (fun a b : TrayRec => a.posY ≤ b.posY) (insertByY t l) := by
  intro l
  induction l with
  | nil => intro _; simp [insertByY]
  | cons u us ih =>
    intro h
    simp only [insertByY]
    split
    case isTrue hle => exact List.chain'_cons.mpr ⟨hle, h⟩
    case isFalse hgt =>
      have hut : u.posY ≤ t.posY := le_of_not_le hgt
      cases us with
      | nil =>
        simp only [insertByY]
        exact List.chain'_cons.mpr ⟨hut, List.chain'_singleton t⟩
      | cons v vs =>
        have hcons := List.chain'_cons.mp h
        by_cases hv : t.posY ≤ v.posY
        · simp only [insertByY, if_pos hv]
          exact List.chain'_cons.mpr ⟨hut, List.chain'_cons.mpr ⟨hv, hcons.2⟩⟩
        · have h2 := ih hcons.2
          simp only [insertByY, if_neg hv] at h2 ⊢
          exact List.chain'_cons.mpr ⟨hcons.1, h2⟩

/-- The sorted tray list is ascending in the y offset. -/
theorem chain_sortByY :
    ∀ l, List.Chain' (fun a b : TrayRec => a.posY ≤ b.posY) (sortByY l) := by
  intro l
  induction l with
  | nil => simp [sortByY]
  | cons t ts ih => exact chain_insertByY t _ ih

/-- The last element belongs to the list. -/
theorem lastTray_mem : ∀ (l : List TrayRec) (t : TrayRec),
    lastTray l = some t → t ∈ l := by
  intro l
  induction l with
  | nil => intro t h; simp [lastTray] at h
  | cons u us ih =>
    intro t h
    cases us with
    | nil =>
      simp only [lastTray, Option.some_inj] at h
      simp [h]
    | cons v vs =>
      rw [show lastTray (u :: v :: vs) = lastTray (v :: vs) from rfl] at h
      exact List.mem_cons_of_mem u (ih t h)

/-- In an ascending list, the last element has the largest y offset. -/
theorem lastTray_max : ∀ (l : List TrayRec) (t : TrayRec),
    List.Chain' (fun a b : TrayRec => a.posY ≤ b.posY) l → lastTray l = some t →
    ∀ u ∈ l, u.posY ≤ t.posY := by
  intro l
  induction l with
  | nil => intro t _ h; simp [lastTray] at h
  | cons a us ih =>
    intro t hch hlast u hu
    cases us with
    | nil =>
      simp only [lastTray, Option.some_inj] at hlast
      have hua : u = a := List.mem_singleton.mp hu
      subst hua
      rw [← hlast]
    | cons v vs =>
      rw [show lastTray (a :: v :: vs) = lastTray (v :: vs) from rfl] at hlast
      have hch2 := List.chain'_cons.mp hch
      rcases List.mem_cons.mp hu with rfl | hmem
      · exact le_trans hch2.1 (ih t hch2.2 hlast v (List.mem_cons_self v vs))
      · exact ih t hch2.2 hlast u hmem

/-- A nonempty list has a last element. -/
theorem lastTray_some : ∀ l : List TrayRec, l ≠ [] → ∃ t, lastTray l = some t := by
  intro l
  induction l with
  | nil => intro h; exact absurd rfl h
  | cons u us ih =>
    intro _
    cases us with
    | nil => exact ⟨u, rfl⟩
    | cons v vs =>
      obtain ⟨t, ht⟩ := ih (by simp)
      exact ⟨t, ht⟩

/-- Sorting a nonempty list gives a nonempty list. -/
theorem sortByY_ne_nil : ∀ l : List TrayRec, l ≠ [] → sortByY l ≠ [] := by
  intro l
  cases l with
  | nil => intro h; exact absurd rfl h
  | cons t ts =>
    intro _
    show insertByY t (sortByY ts) ≠ []
    cases sortByY ts with
    | nil => simp [insertByY]
    | cons u us =>
      simp only [insertByY]
      split <;> simp

/-- The aggregation fold, run from any accumulator. -/
theorem mainAggregate_foldl (rs : List MeshReport) :
    ∀ acc : List MeshReport × List String,
      rs.foldl (fun a r => (a.1 ++ [r], a.2 ++ meshIssues r)) acc =
        (acc.1 ++ rs, acc.2 ++ rs.flatMap meshIssues) := by
  induction rs with
  | nil => intro acc; simp
  | cons r rest ih =>
    intro acc
    rw [List.foldl_cons, ih]
    simp

/-- Closed form of the aggregation loop: records are kept unchanged and
the combined issues are the concatenated per-mesh issues. -/
theorem mainAggregate_eq (reports : List MeshReport) :
    mainAggregate reports = (reports, reports.flatMap meshIssues) := by
  unfold mainAggregate
  rw [mainAggregate_foldl]
  simp

/-- One-axis separation is symmetric in the two boxes. -/
theorem axisSeparated_symm (b1 b2 : Bounds3) (d : Fin 3) :
    axisSeparated b1 b2 d = axisSeparated b2 b1 d := by
  simp [axisSeparated, Bool.or_comm]

/-- The diagnosis chain yields the PROBLEM string exactly when the entry
count exceeds the exit count. -/
theorem diagnose_eq_problem_iff (a b : Nat) :
    diagnose a b = problemDiag ↔ b < a := by
  unfold diagnose
  split
  case isTrue h => exact ⟨fun _ => h, fun _ => rfl⟩
  case isFalse h1 =>
    split
    case isTrue h2 => exact ⟨fun hh => absurd hh (by decide), fun hh => absurd hh h1⟩
    case isFalse h2 => exact ⟨fun hh => absurd hh (by decide), fun hh => absurd hh h1⟩

/-- The diagnosis chain yields the OK string exactly when the entry
count does not exceed the exit count and the exit count exceeds 10. -/
theorem diagnose_eq_ok_iff (a b : Nat) :
    diagnose a b = okDiag ↔ a ≤ b ∧ 10 < b := by
  unfold diagnose
  split
  case isTrue h => exact ⟨fun hh => absurd hh (by decide), fun hh => absurd h (by omega)⟩
  case isFalse h1 =>
    split
    case isTrue h2 => exact ⟨fun _ => ⟨by omega, h2⟩, fun _ => rfl⟩
    case isFalse h2 => exact ⟨fun hh => absurd hh (by decide), fun hh => absurd hh.2 h2⟩

/-- The diagnosis chain yields the WARNING string exactly when the entry
count does not exceed the exit count and the exit count is at most 10. -/
theorem diagnose_eq_warn_iff (a b : Nat) :
    diagnose a b = warnDiag ↔ a ≤ b ∧ b ≤ 10 := by
  unfold diagnose
  split
  case isTrue h => exact ⟨fun hh => absurd hh (by decide), fun hh => absurd h (by omega)⟩
  case isFalse h1 =>
    split
    case isTrue h2 => exact ⟨fun hh => absurd hh (by decide), fun hh => absurd h2 (by omega)⟩
    case isFalse h2 => exact ⟨fun _ => ⟨by omega, by omega⟩, fun _ => rfl⟩

/-- Both orientation branches of the comparator compute the diagnosis
from the two counts through the same chain. -/
theorem compare_diagnosis_eq (w d h : ℚ) (fs : List FaceData) :
    (compare_entry_vs_exit w d h fs).diagnosis =
      diagnose (compare_entry_vs_exit w d h fs).entryCount
        (compare_entry_vs_exit w d h fs).exitCount := by
  unfold compare_entry_vs_exit
  split <;> rfl

/-- The orientation label of the region analyzer is decided by the
single inequality depth > width. -/
theorem erp_boxType (w d h : ℚ) (fs : List FaceData) :
    (analyze_expected_ramp_positions w d h fs).boxType =
      if w < d then ySlideLabel else xSlideLabel := by
  unfold analyze_expected_ramp_positions
  split <;> rfl

/-- The slide-type label of the comparator is decided by the same
inequality depth > width. -/
theorem cee_slideType (w d h : ℚ) (fs : List FaceData) :
    (compare_entry_vs_exit w d h fs).slideType =
      if w < d then ySlideShort else xSlideShort := by
  unfold compare_entry_vs_exit
  split <;> rfl

/-- The reported face count of a region summary is the number of
matching faces. -/
theorem regionSummary_facesFound (m : List FaceData) :
    (regionSummary m).facesFound = m.length := by
  unfold regionSummary
  split
  case isTrue hE => simp [List.isEmpty_iff.mp hE]
  case isFalse hE => rfl

/-- The reported angled count of a region summary is the number of
matching faces passing the angled-normal test. -/
theorem regionSummary_angledCount (m : List FaceData) :
    (regionSummary m).angledCount = (m.filter angledPred).length := by
  unfold regionSummary
  split
  case isTrue hE => simp [List.isEmpty_iff.mp hE]
  case isFalse hE => rfl

/-- The status of a region summary as a function of the two counts. -/
theorem regionSummary_status (m : List FaceData) :
    (regionSummary m).status =
      if m.length = 0 then noGeomStatus
      else if 5 < (m.filter angledPred).length then rampStatus
      else flatStatus := by
  unfold regionSummary
  split
  case isTrue hE => rw [if_pos (by simp [List.isEmpty_iff.mp hE])]
  case isFalse hE =>
    rw [if_neg (by simpa [List.isEmpty_iff, List.length_eq_zero] using hE)]

/-- Classification dichotomy of a region summary. -/
theorem regionSummary_classification (m : List FaceData) :
    ((regionSummary m).facesFound = 0 ↔ (regionSummary m).status = noGeomStatus) ∧
    (0 < (regionSummary m).facesFound →
      ((regionSummary m).status = rampStatus ↔ 5 < (regionSummary m).angledCount) ∧
      ((regionSummary m).status = flatStatus ↔ (regionSummary m).angledCount ≤ 5)) := by
  rw [regionSummary_facesFound, regionSummary_angledCount, regionSummary_status]
  by_cases h0 : m.length = 0
  · rw [if_pos h0]
    exact ⟨by simp [h0], fun hpos => absurd h0 (by omega)⟩
  · rw [if_neg h0]
    refine ⟨⟨fun hz => absurd hz h0, fun hst => ?_⟩, fun hpos => ⟨?_, ?_⟩⟩
    · exfalso
      revert hst
      split
      · exact fun hh => absurd hh (by decide)
      · exact fun hh => absurd hh (by decide)
    · constructor
      · intro hst
        by_contra hle
        rw [if_neg (by omega)] at hst
        exact absurd hst (by decide)
      · intro hgt
        rw [if_pos hgt]
    · constructor
      · intro hst
        by_contra hgt
        rw [if_pos (by omega)] at hst
        exact absurd hst (by decide)
      · intro hle
        rw [if_neg (by omega)]

/-! ## Claim theorems -/

/-- C2: the detector returns an empty cluster list whenever fewer than 2
diagonal faces exist; every surviving cluster has at least 3 member
faces and total area inside [1.0, 50.0]; and any mesh with exactly 2
diagonal faces (in particular 2 such faces within 3.0 units with
combined area 10) yields an empty list. -/
theorem detect_ramps_filters :
    (∀ faces : List FaceData,
      (faces.filter (fun f => isDiagonal f.normal)).length < 2 →
        detect_ramps faces = []) ∧
    (∀ (faces : List FaceData) (c : RampCluster), c ∈ detect_ramps faces →
      3 ≤ c.faceCount ∧ 1 ≤ c.totalArea ∧ c.totalArea ≤ 50) ∧
    (∀ faces : List FaceData,
      (faces.filter (fun f => isDiagonal f.normal)).length = 2 →
        detect_ramps faces = []) := by
  refine ⟨?_, ?_, ?_⟩
  · intro faces h
    simp only [detect_ramps]
    rw [if_pos h]
  · intro faces c hc
    simp only [detect_ramps] at hc
    split at hc
    case isTrue => simp at hc
    case isFalse =>
      obtain ⟨g, hg, hmk⟩ := List.mem_filterMap.mp hc
      simp only [mkRamp] at hmk
      split at hmk
      case isTrue => simp at hmk
      case isFalse h3 =>
        split at hmk
        case isTrue => simp at hmk
        case isFalse harea =>
          push_neg at harea
          obtain rfl := Option.some_inj.mp hmk
          exact ⟨show 3 ≤ g.length by omega, harea.1, harea.2⟩
  · intro faces h2
    simp only [detect_ramps]
    rw [if_neg (by omega)]
    apply List.filterMap_eq_nil_iff.mpr
    intro g hg
    have hle := clusterGroups_size hg
    rw [h2] at hle
    simp only [mkRamp]
    rw [if_pos (by omega)]

/-- Witness for C2: two diagonal faces within 3.0 units of each other
with combined area 10 produce no clusters. -/
theorem detect_ramps_filters_witness : detect_ramps exTwoDiagFaces = [] :=
  detect_ramps_filters.2.2 exTwoDiagFaces
    (by norm_num [exTwoDiagFaces, isDiagonal, List.filter, max_def,
      show |(3:ℚ)/5| = 3/5 from by norm_num,
      show |(1:ℚ)/2| = 1/2 from by norm_num])

/-- C4 (amended): for every surviving cluster the reported protrusion
direction is the axis-with-sign of the average normal's strictly
dominant absolute component among X and Y; when no strict dominance
holds — in particular when the X and Y absolute components are tied —
the direction is the `unknown` label, and a Z label is never produced
(the direction is always one of +X, -X, +Y, -Y, unknown). -/
theorem detect_ramps_protrusion (faces : List FaceData) (c : RampCluster)
    (hc : c ∈ detect_ramps faces) :
    ((|c.meanNormal.x| > |c.meanNormal.y| ∧ |c.meanNormal.x| > |c.meanNormal.z|) →
      c.dir = if c.meanNormal.x > 0 then dirPlusX else dirMinusX) ∧
    ((¬(|c.meanNormal.x| > |c.meanNormal.y| ∧ |c.meanNormal.x| > |c.meanNormal.z|) ∧
      |c.meanNormal.y| > |c.meanNormal.x| ∧ |c.meanNormal.y| > |c.meanNormal.z|) →
      c.dir = if c.meanNormal.y > 0 then dirPlusY else dirMinusY) ∧
    ((¬(|c.meanNormal.x| > |c.meanNormal.y| ∧ |c.meanNormal.x| > |c.meanNormal.z|) ∧
      ¬(|c.meanNormal.y| > |c.meanNormal.x| ∧ |c.meanNormal.y| > |c.meanNormal.z|)) →
      c.dir = dirUnknown) ∧
    (c.dir = dirPlusX ∨ c.dir = dirMinusX ∨ c.dir = dirPlusY ∨
      c.dir = dirMinusY ∨ c.dir = dirUnknown) := by
  have hdir := detect_ramps_dir faces c hc
  refine ⟨?_, ?_, ?_, ?_⟩
  · intro hdom
    rw [hdir]
    unfold protrusionDir
    rw [if_pos hdom]
  · intro hdom
    rw [hdir]
    unfold protrusionDir
    rw [if_neg hdom.1, if_pos hdom.2]
  · intro hdom
    rw [hdir]
    unfold protrusionDir
    rw [if_neg hdom.1, if_neg hdom.2]
  · rw [hdir]
    unfold protrusionDir
    split
    · split
      · exact Or.inl rfl
      · exact Or.inr (Or.inl rfl)
    · split
      · split
        · exact Or.inr (Or.inr (Or.inl rfl))
        · exact Or.inr (Or.inr (Or.inr (Or.inl rfl)))
      · exact Or.inr (Or.inr (Or.inr (Or.inr rfl)))

/-- Counterexample to C4 as stated: a surviving cluster whose average
normal has tied X and Y absolute components (3/5 each) exceeding the Z
component (1/2), with a positive X component; the claim prescribes the
+X label for this tie, but the detector reports `unknown`. -/
theorem detect_ramps_tie_counterexample :
    detect_ramps exTieFaces = [exTieCluster] ∧
    |exTieCluster.meanNormal.x| = |exTieCluster.meanNormal.y| ∧
    |exTieCluster.meanNormal.x| > |exTieCluster.meanNormal.z| ∧
    exTieCluster.meanNormal.x > 0 ∧
    exTieCluster.dir = dirUnknown ∧
    dirUnknown ≠ dirPlusX := by
  refine ⟨?_, ?_, ?_, ?_, rfl, by decide⟩
  · norm_num [detect_ramps, exTieFaces, isDiagonal, clusterGroups, addFace,
      touchesGroup, closeFaces, sqDist, List.filter, List.foldl, List.filterMap,
      mkRamp, meanVec, protrusionDir, exTieCluster, max_def,
      show |(3:ℚ)/5| = 3/5 from by norm_num,
      show |(1:ℚ)/2| = 1/2 from by norm_num]
  · norm_num [exTieCluster]
  · norm_num [exTieCluster,
      show |(3:ℚ)/5| = 3/5 from by norm_num,
      show |(1:ℚ)/2| = 1/2 from by norm_num]
  · norm_num [exTieCluster]

/-- Witness for C4: on a cluster whose average normal has a strictly
dominant positive X component, the theorem yields the +X label. -/
theorem detect_ramps_protrusion_witness :
    exDomCluster ∈ detect_ramps exDomFaces ∧ exDomCluster.dir = dirPlusX := by
  have hmem : exDomCluster ∈ detect_ramps exDomFaces := by
    have heval : detect_ramps exDomFaces = [exDomCluster] := by
      norm_num [detect_ramps, exDomFaces, isDiagonal, clusterGroups, addFace,
        touchesGroup, closeFaces, sqDist, List.filter, List.foldl, List.filterMap,
        mkRamp, meanVec, protrusionDir, exDomCluster, max_def,
        show |(4:ℚ)/5| = 4/5 from by norm_num,
        show |(3:ℚ)/10| = 3/10 from by norm_num,
        show |(2:ℚ)/5| = 2/5 from by norm_num]
    rw [heval]
    exact List.mem_singleton.mpr rfl
  have hdom := (detect_ramps_protrusion exDomFaces exDomCluster hmem).1
    (by norm_num [exDomCluster,
      show |(4:ℚ)/5| = 4/5 from by norm_num,
      show |(3:ℚ)/10| = 3/10 from by norm_num,
      show |(2:ℚ)/5| = 2/5 from by norm_num])
  exact ⟨hmem, hdom.trans (if_pos (by norm_num [exDomCluster]))⟩

/-- C10: every per-mesh report is kept unchanged in the batch record
(so watertight warnings remain recorded there), while the combined
issue list contains the name-prefixed copy of every error and of every
warning not containing `watertight` (case-insensitively), and nothing
else — in particular a watertight warning never contributes to it. -/
theorem mainAggregate_spec (reports : List MeshReport) :
    (mainAggregate reports).1 = reports ∧
    (∀ r ∈ reports,
      (∀ e ∈ r.errors, taggedIssue r.name e ∈ (mainAggregate reports).2) ∧
      (∀ w ∈ r.warnings, isWatertightWarn w = false →
        taggedIssue r.name w ∈ (mainAggregate reports).2)) ∧
    (∀ s ∈ (mainAggregate reports).2, ∃ r ∈ reports,
      (∃ e ∈ r.errors, s = taggedIssue r.name e) ∨
      (∃ w ∈ r.warnings, isWatertightWarn w = false ∧
        s = taggedIssue r.name w)) := by
  rw [mainAggregate_eq]
  refine ⟨rfl, ?_, ?_⟩
  · intro r hr
    constructor
    · intro e he
      exact List.mem_flatMap.mpr ⟨r, hr,
        List.mem_append.mpr (Or.inl (List.mem_map.mpr ⟨e, he, rfl⟩))⟩
    · intro w hw hnw
      exact List.mem_flatMap.mpr ⟨r, hr,
        List.mem_append.mpr (Or.inr (List.mem_map.mpr
          ⟨w, List.mem_filter.mpr ⟨hw, by simp [hnw]⟩, rfl⟩))⟩
  · intro s hs
    obtain ⟨r, hr, hsr⟩ := List.mem_flatMap.mp hs
    refine ⟨r, hr, ?_⟩
    rcases List.mem_append.mp hsr with hE | hW
    · obtain ⟨e, he, rfl⟩ := List.mem_map.mp hE
      exact Or.inl ⟨e, he, rfl⟩
    · obtain ⟨w, hwf, rfl⟩ := List.mem_map.mp hW
      obtain ⟨hw, hpw⟩ := List.mem_filter.mp hwf
      exact Or.inr ⟨w, hw, by simpa using hpw, rfl⟩

/-- Witness for C10: on a report with one degenerate-face error and the
two advisory warnings, the theorem puts the prefixed error and the
prefixed winding warning into the combined list. -/
theorem mainAggregate_spec_witness :
    taggedIssue boxName (degenerateMsg 1) ∈ (mainAggregate [exReport]).2 ∧
    taggedIssue boxName windingWarn ∈ (mainAggregate [exReport]).2 := by
  have h := (mainAggregate_spec [exReport]).2.1 exReport (by simp)
  exact ⟨h.1 (degenerateMsg 1) (by simp [exReport]),
    h.2 windingWarn (by simp [exReport]) (by decide)⟩

/-- C1 (amended): for every non-empty collection of content items with
placements, the aggregated total depth equals the far edge (placement
depth-offset plus depth extent) of an item whose placement depth-offset
is maximal among all items — the last tray after the stable ascending
sort by depth-offset — which in general differs from the maximum far
edge over all items. -/
theorem spatialTotalDepth_max_offset (meshes : List (String × Vec3))
    (pl : Placements) (hne : trayRecords meshes pl ≠ []) :
    ∃ t ∈ trayRecords meshes pl,
      (∀ u ∈ trayRecords meshes pl, u.posY ≤ t.posY) ∧
      spatialTotalDepth meshes pl = t.posY + t.depth := by
  obtain ⟨t, ht⟩ := lastTray_some _ (sortByY_ne_nil _ hne)
  refine ⟨t, (mem_sortByY t _).mp (lastTray_mem _ t ht), ?_, ?_⟩
  · intro u hu
    exact lastTray_max _ t (chain_sortByY _) ht u ((mem_sortByY u _).mpr hu)
  · unfold spatialTotalDepth total_tray_depth
    rw [ht]
    rfl

/-- Counterexample to C1 as stated: with a tray of offset 0 and depth
100 and a tray of offset 10 and depth 5, the analyzer reports total
depth 15 (far edge of the largest-offset tray) while the maximum far
edge over all items is 100. -/
theorem spatialTotalDepth_counterexample :
    spatialTotalDepth exC1Meshes exC1Placements = 15 ∧
    claimMaxFarEdge (trayRecords exC1Meshes exC1Placements) = 100 ∧
    (15 : ℚ) ≠ 100 := by
  refine ⟨?_, ?_, by norm_num⟩
  · norm_num [spatialTotalDepth, total_tray_depth, trayRecords, exC1Meshes,
      exC1Placements, lookupPlacement, List.filterMap, sortByY, insertByY,
      lastTray, farEdge, List.find?,
      show (trayBName == trayAName) = false from by decide,
      show strOccursLower trayToken trayAName = true from by decide,
      show strOccursLower trayToken trayBName = true from by decide]
  · norm_num [claimMaxFarEdge, trayRecords, exC1Meshes, exC1Placements,
      lookupPlacement, List.filterMap, farEdge, max_def, List.find?,
      show (trayBName == trayAName) = false from by decide,
      show strOccursLower trayToken trayAName = true from by decide,
      show strOccursLower trayToken trayBName = true from by decide]

/-- Witness for C1: applying the amended statement to the two example
trays pins the total depth to the far edge 15 of the largest-offset
tray. -/
theorem spatialTotalDepth_max_offset_witness :
    spatialTotalDepth exC1Meshes exC1Placements = 15 := by
  have hrec : trayRecords exC1Meshes exC1Placements =
      [⟨trayAName, 10, 100, 5, 0, 0⟩, ⟨trayBName, 10, 5, 5, 0, 10⟩] := by
    norm_num [trayRecords, exC1Meshes, exC1Placements, lookupPlacement,
      List.filterMap, List.find?,
      show (trayBName == trayAName) = false from by decide,
      show strOccursLower trayToken trayAName = true from by decide,
      show strOccursLower trayToken trayBName = true from by decide]
  obtain ⟨t, htmem, hmax, htot⟩ :=
    spatialTotalDepth_max_offset exC1Meshes exC1Placements
      (by rw [hrec]; exact List.cons_ne_nil _ _)
  rw [hrec] at htmem hmax
  rcases List.mem_cons.mp htmem with rfl | hmem2
  · have hB := hmax ⟨trayBName, 10, 5, 5, 0, 10⟩ (by simp)
    norm_num at hB
  · rcases List.mem_cons.mp hmem2 with rfl | h3
    · rw [htot]
      norm_num
    · simp at h3

/-- C3 (amended): for every enumerated pair in which the content-like
mesh (name containing `tray`, case-insensitively) precedes the container
mesh (named exactly `box`), if the placement-shifted bounds overlap then
each axis bound of the content exceeding the container's bound beyond
the 0.5 tolerance emits the corresponding named defect; when the
container precedes the content in the enumeration, no such defect is
emitted (see the counterexample). -/
theorem check_intersections_contained (ms : List (String × Bounds3))
    (pl : Placements) (n1 : String) (b1 : Bounds3) (n2 : String) (b2 : Bounds3)
    (hmem : ((n1, b1), (n2, b2)) ∈ orderedPairs (placedList ms pl))
    (htray : strOccursLower trayToken n1 = true)
    (hbox : n2 = boxName)
    (hov : overlapsB b1 b2 = true) (d : Fin 3) :
    (b1.bmin.comp d < b2.bmin.comp d - 1/2 →
      extendsMinMsg n1 d ∈ check_intersections ms pl) ∧
    (b1.bmax.comp d > b2.bmax.comp d + 1/2 →
      extendsMaxMsg n1 d ∈ check_intersections ms pl) := by
  have hpair : ∀ s, s ∈ pairIssues (n1, b1) (n2, b2) →
      s ∈ check_intersections ms pl := by
    intro s hsp
    unfold check_intersections
    exact List.mem_flatMap.mpr ⟨((n1, b1), (n2, b2)), hmem, hsp⟩
  have hred : pairIssues (n1, b1) (n2, b2) = containDefects n1 b1 b2 := by
    unfold pairIssues
    rw [hbox]
    simp [hov, htray]
  constructor
  · intro hexc
    apply hpair
    rw [hred]
    unfold containDefects
    refine List.mem_flatMap.mpr ⟨d, List.mem_finRange d, ?_⟩
    rw [if_pos hexc]
    exact List.mem_append.mpr (Or.inl (List.mem_singleton.mpr rfl))
  · intro hexc
    apply hpair
    rw [hred]
    unfold containDefects
    refine List.mem_flatMap.mpr ⟨d, List.mem_finRange d, ?_⟩
    rw [if_pos hexc]
    exact List.mem_append.mpr (Or.inr (List.mem_singleton.mpr rfl))

/-- Counterexample to C3 as stated: the same overlapping box/tray pair,
with the tray extending past the box maximum on X, yields the defect
only when the tray is enumerated before the box; with the box first the
checker emits nothing, so emission is not order-independent. -/
theorem check_intersections_order_counterexample :
    check_intersections [(boxName, exBoxBounds), (trayAName, exTrayBounds)] [] = [] ∧
    check_intersections [(trayAName, exTrayBounds), (boxName, exBoxBounds)] [] =
      [extendsMaxMsg trayAName 0] := by
  constructor <;>
    norm_num [check_intersections, placedList, orderedPairs, get_placed_bounds,
      lookupPlacement, pairIssues, overlapsB, axisSeparated,
      Vec3.comp_zero, Vec3.comp_one, Vec3.comp_two,
      containDefects, exBoxBounds, exTrayBounds, List.find?,
      show List.finRange 3 = [0, 1, 2] from by decide,
      show strOccursLower trayToken boxName = false from by decide,
      show strOccursLower trayToken trayAName = true from by decide]

/-- Witness for C3: the amended statement applied to the tray-first
enumeration of the example pair, on the X max axis. -/
theorem check_intersections_contained_witness :
    extendsMaxMsg trayAName 0 ∈
      check_intersections [(trayAName, exTrayBounds), (boxName, exBoxBounds)] [] := by
  refine (check_intersections_contained
      [(trayAName, exTrayBounds), (boxName, exBoxBounds)] []
      trayAName (get_placed_bounds [] trayAName exTrayBounds)
      boxName (get_placed_bounds [] boxName exBoxBounds)
      ?_ (by decide) rfl ?_ 0).2 ?_
  · simp [placedList, orderedPairs]
  · norm_num [get_placed_bounds, lookupPlacement, overlapsB, axisSeparated,
      Vec3.comp_zero, Vec3.comp_one, Vec3.comp_two, exTrayBounds, exBoxBounds,
      List.find?]
  · norm_num [get_placed_bounds, lookupPlacement, Vec3.comp_zero, exTrayBounds,
      exBoxBounds, List.find?]

/-- C8: the bounding-box overlap test with its 0.5 tolerance is
symmetric: for all axis-aligned bounds A and B (valid ones included),
`overlaps(A, B) == overlaps(B, A)`, where two boxes overlap iff on every
axis neither box's max is ≤ the other box's min plus 0.5. -/
theorem overlapsB_symm (A B : Bounds3) : overlapsB A B = overlapsB B A := by
  unfold overlapsB
  rw [axisSeparated_symm A B 0, axisSeparated_symm A B 1, axisSeparated_symm A B 2]

/-- C9: faces with area strictly below 1e-10 are counted; a positive
count yields exactly one degenerate-face error stating that count, and
the error list does not depend on the watertight/winding flags; the
warning list does not depend on the areas, and non-watertightness and
inconsistent winding each contribute a warning; a mesh whose single face
has area 1e-12 yields exactly the one error reporting count 1. -/
theorem analyze_mesh_checks_spec (wt wc : Bool) (areas : List ℚ) :
    (0 < degCount areas →
      (analyze_mesh_checks wt wc areas).errors = [degenerateMsg (degCount areas)]) ∧
    (degCount areas = 0 → (analyze_mesh_checks wt wc areas).errors = []) ∧
    (analyze_mesh_checks wt wc areas).errors =
      (analyze_mesh_checks true true areas).errors ∧
    (analyze_mesh_checks wt wc areas).warnings =
      (analyze_mesh_checks wt wc []).warnings ∧
    (wt = false → watertightWarn ∈ (analyze_mesh_checks wt wc areas).warnings) ∧
    (wc = false → windingWarn ∈ (analyze_mesh_checks wt wc areas).warnings) ∧
    (analyze_mesh_checks wt wc [1 / 10 ^ 12]).errors = [degenerateMsg 1] := by
  refine ⟨?_, ?_, rfl, rfl, ?_, ?_, ?_⟩
  · intro hpos
    simp [analyze_mesh_checks, hpos]
  · intro hzero
    simp [analyze_mesh_checks, hzero]
  · intro hwt
    subst hwt
    simp [analyze_mesh_checks]
  · intro hwc
    subst hwc
    simp [analyze_mesh_checks]
  · have hcount : degCount [1 / 10 ^ 12] = 1 := by
      norm_num [degCount, degenerateEps, List.countP, List.countP.go]
    show (if 0 < degCount [1 / 10 ^ 12]
        then [degenerateMsg (degCount [1 / 10 ^ 12])] else []) = [degenerateMsg 1]
    rw [hcount, if_pos (by omega)]

/-- Witness for C9: at a non-watertight, inconsistently wound mesh whose
single face has area 1e-12, the theorem yields the single count-1 error
and the watertight warning. -/
theorem analyze_mesh_checks_spec_witness :
    (analyze_mesh_checks false false [1 / 10 ^ 12]).errors =
      [degenerateMsg (degCount [1 / 10 ^ 12])] ∧
    watertightWarn ∈ (analyze_mesh_checks false false [1 / 10 ^ 12]).warnings :=
  ⟨(analyze_mesh_checks_spec false false [1 / 10 ^ 12]).1
      (by norm_num [degCount, degenerateEps, List.countP, List.countP.go]),
   (analyze_mesh_checks_spec false false [1 / 10 ^ 12]).2.2.2.2.1 rfl⟩

/-- C7: the orientation is the depth-slide (Y-slide) label iff depth
strictly exceeds width, in both the Expected-Position Region Analyzer
and the Entry-vs-Exit Comparator; a tie classifies as width-slide
(X-slide) in both. -/
theorem orientation_classification (w d h : ℚ) (fs : List FaceData) :
    ((analyze_expected_ramp_positions w d h fs).boxType = ySlideLabel ↔ w < d) ∧
    ((analyze_expected_ramp_positions w d h fs).boxType = xSlideLabel ↔ ¬w < d) ∧
    ((compare_entry_vs_exit w d h fs).slideType = ySlideShort ↔ w < d) ∧
    ((compare_entry_vs_exit w d h fs).slideType = xSlideShort ↔ ¬w < d) ∧
    (analyze_expected_ramp_positions w w h fs).boxType = xSlideLabel ∧
    (compare_entry_vs_exit w w h fs).slideType = xSlideShort := by
  refine ⟨?_, ?_, ?_, ?_, ?_, ?_⟩
  · rw [erp_boxType]
    by_cases hlt : w < d
    · rw [if_pos hlt]
      exact ⟨fun _ => hlt, fun _ => rfl⟩
    · rw [if_neg hlt]
      exact ⟨fun hh => absurd hh (by decide), fun hh => absurd hh hlt⟩
  · rw [erp_boxType]
    by_cases hlt : w < d
    · rw [if_pos hlt]
      exact ⟨fun hh => absurd hh (by decide), fun hh => absurd hlt hh⟩
    · rw [if_neg hlt]
      exact ⟨fun _ => hlt, fun _ => rfl⟩
  · rw [cee_slideType]
    by_cases hlt : w < d
    · rw [if_pos hlt]
      exact ⟨fun _ => hlt, fun _ => rfl⟩
    · rw [if_neg hlt]
      exact ⟨fun hh => absurd hh (by decide), fun hh => absurd hh hlt⟩
  · rw [cee_slideType]
    by_cases hlt : w < d
    · rw [if_pos hlt]
      exact ⟨fun hh => absurd hh (by decide), fun hh => absurd hlt hh⟩
    · rw [if_neg hlt]
      exact ⟨fun _ => hlt, fun _ => rfl⟩
  · rw [erp_boxType, if_neg (lt_irrefl w)]
  · rw [cee_slideType, if_neg (lt_irrefl w)]

/-- C5: in the wall-region analysis, the classification is the
no-geometry status exactly when the query matches zero faces; otherwise
it is the ramp-detected status exactly when the angled-face count is
strictly greater than 5, and the flat-only status otherwise. -/
theorem analyze_wall_region_classification (xMin xMax exitY gzMin gzMax : ℚ)
    (fs : List FaceData) :
    ((analyze_wall_region xMin xMax exitY gzMin gzMax fs).facesFound = 0 ↔
      (analyze_wall_region xMin xMax exitY gzMin gzMax fs).status = noGeomStatus) ∧
    (0 < (analyze_wall_region xMin xMax exitY gzMin gzMax fs).facesFound →
      ((analyze_wall_region xMin xMax exitY gzMin gzMax fs).status = rampStatus ↔
        5 < (analyze_wall_region xMin xMax exitY gzMin gzMax fs).angledCount) ∧
      ((analyze_wall_region xMin xMax exitY gzMin gzMax fs).status = flatStatus ↔
        (analyze_wall_region xMin xMax exitY gzMin gzMax fs).angledCount ≤ 5)) := by
  unfold analyze_wall_region
  exact regionSummary_classification _

/-- Witness for C5: the classification dichotomy applied at a region
containing one matching angled face. -/
theorem analyze_wall_region_classification_witness :
    ((analyze_wall_region 0 5 10 16 20 exWallFaces).status = rampStatus ↔
      5 < (analyze_wall_region 0 5 10 16 20 exWallFaces).angledCount) ∧
    ((analyze_wall_region 0 5 10 16 20 exWallFaces).status = flatStatus ↔
      (analyze_wall_region 0 5 10 16 20 exWallFaces).angledCount ≤ 5) :=
  (analyze_wall_region_classification 0 5 10 16 20 exWallFaces).2
    (by norm_num [analyze_wall_region, regionSummary, exWallFaces, List.filter])

/-- C6: the comparator's diagnosis follows the precedence entry > exit →
entry-exceeds-exit, else exit > 10 → exit-sufficient, else
exit-insufficient; at a mesh with entry count 8 and exit count 2 the
diagnosis is the entry-exceeds-exit string. -/
theorem compare_entry_vs_exit_diagnosis (w d h : ℚ) (fs : List FaceData) :
    ((compare_entry_vs_exit w d h fs).diagnosis = problemDiag ↔
      (compare_entry_vs_exit w d h fs).exitCount <
        (compare_entry_vs_exit w d h fs).entryCount) ∧
    ((compare_entry_vs_exit w d h fs).diagnosis = okDiag ↔
      (compare_entry_vs_exit w d h fs).entryCount ≤
          (compare_entry_vs_exit w d h fs).exitCount ∧
        10 < (compare_entry_vs_exit w d h fs).exitCount) ∧
    ((compare_entry_vs_exit w d h fs).diagnosis = warnDiag ↔
      (compare_entry_vs_exit w d h fs).entryCount ≤
          (compare_entry_vs_exit w d h fs).exitCount ∧
        (compare_entry_vs_exit w d h fs).exitCount ≤ 10) ∧
    (compare_entry_vs_exit 40 90 20 exEEFaces).entryCount = 8 ∧
    (compare_entry_vs_exit 40 90 20 exEEFaces).exitCount = 2 ∧
    (compare_entry_vs_exit 40 90 20 exEEFaces).diagnosis = problemDiag := by
  have hconc : compare_entry_vs_exit 40 90 20 exEEFaces =
      ⟨ySlideShort, 8, 2, problemDiag⟩ := by
    norm_num [compare_entry_vs_exit, grooveFacesY, exEEFaces, wallThickness,
      List.filter, diagnose]
  refine ⟨?_, ?_, ?_, ?_, ?_, ?_⟩
  · rw [compare_diagnosis_eq]
    exact diagnose_eq_problem_iff _ _
  · rw [compare_diagnosis_eq]
    exact diagnose_eq_ok_iff _ _
  · rw [compare_diagnosis_eq]
    exact diagnose_eq_warn_iff _ _
  · rw [hconc]
  · rw [hconc]
  · rw [hconc]

end MeshAnalyzer
